import Mathlib

/-!
Shallow embedding of `config.go` from the `nav` repository (kernel symbol
navigator): the command-line switch registry, the per-switch handler set, the
JSON config-file overlay, the sequential two-state parser `argsParse`, and the
required-switch validator.

Modelling conventions, written from the Go source:

* Go machine `int` values are modelled as `Int` (no claim exercises overflow,
  and `strconv.Atoi` is modelled as exact decimal parsing).
* Fallible Go functions returning `error` become `Except String _`; an error
  value is identified by its message string (`errors.New`).
* `configuration.cmdlineNeeds` is a Go `map[string]bool`, a reference type: the
  assignment `var conf = defaultConfig` inside `argsParse` copies the struct
  but shares the map object, so every map write performed through `conf` is
  visible through the package-level `defaultConfig` as well.  The embedding
  threads the single shared map's contents through the parser; the
  configuration returned by `argsParse` (on both the success and the error
  path) carries the shared map's current contents in its `cmdlineNeeds`
  field, and `defaultAfter` reconstructs the package-level `defaultConfig`
  value as it stands after the call (same shared map contents, untouched
  value fields).
* The ambient file system used by `funcJconf` (`os.Open` + `io.ReadAll` +
  `json.Unmarshal`) is abstracted as `Fs : String → Except String jsonDoc`:
  either a failure (open/read/decode error) or the successfully decoded
  partial document.  `json.Unmarshal` into a struct pointer sets exactly the
  exported fields present in the document and leaves all others untouched;
  `jsonUnmarshal` embeds that merge-by-presence behaviour (the unexported
  `cmdlineNeeds` field can never be set by the decoder).
-/

deriving instance DecidableEq for Except

/-- A Go `map[string]bool` value as an association list with at most one entry
per key; `mapSet` is the Go assignment `m[k] = v`. -/
def mapSet (m : List (String × Bool)) (k : String) (v : Bool) : List (String × Bool) :=
  match m with
  | [] => [(k, v)]
  | (k', v') :: rest => if k' = k then (k, v) :: rest else (k', v') :: mapSet rest k v

/-- Map lookup, `m[k]` together with its presence bit. -/
def lookup (m : List (String × Bool)) (k : String) : Option Bool :=
  match m with
  | [] => none
  | (k', v') :: rest => if k' = k then some v' else lookup rest k

/-- Decimal digits to a number; fails on any non-digit character. -/
def parseDigitsAux : List Char → Nat → Option Nat
  | [], acc => some acc
  | c :: cs, acc =>
    if c.isDigit then parseDigitsAux cs (10 * acc + (c.toNat - 48)) else none

/-- Embedding of `strconv.Atoi`: optional sign followed by at least one
decimal digit, nothing else. -/
def goAtoi (s : String) : Except String Int :=
  match s.toList with
  | [] => .error ("strconv.Atoi: parsing " ++ s ++ ": invalid syntax")
  | '+' :: cs =>
    match cs, parseDigitsAux cs 0 with
    | _ :: _, some n => .ok (Int.ofNat n)
    | _, _ => .error ("strconv.Atoi: parsing " ++ s ++ ": invalid syntax")
  | '-' :: cs =>
    match cs, parseDigitsAux cs 0 with
    | _ :: _, some n => .ok (-(Int.ofNat n))
    | _, _ => .error ("strconv.Atoi: parsing " ++ s ++ ": invalid syntax")
  | cs =>
    match parseDigitsAux cs 0 with
    | some n => .ok (Int.ofNat n)
    | none => .error ("strconv.Atoi: parsing " ++ s ++ ": invalid syntax")

/-- Modelled from the spec: the `outMode` enumeration (`printAll`,
`printSubsys`, `OutModeLast`) lives in a repository file that is not under
`src/`; per the spec, modes 0 and 1 lie within the closed enumerated range of
supported modes, mode 99 does not, and the default mode is "print
subsystems". -/
def printAll : Int := 0

/-- Modelled from the spec: the default output mode, "print subsystems". -/
def printSubsys : Int := 1

/-- Modelled from the spec: one past the last supported output mode; the
help text in `src/config.go` names modes 1 and 2, so the enumerated range is
`printAll ≤ m < OutModeLast` with `OutModeLast = 3`. -/
def OutModeLast : Int := 3

/-- The constant `DBPortNumber` from `config.go`. -/
def DBPortNumber : Int := 5432

/-- The `configuration` struct from `config.go`. -/
structure configuration where
  cmdlineNeeds : List (String × Bool)
  DBTargetDB : String
  DBUrl : String
  DBUser : String
  DBPassword : String
  Symbol : String
  Jout : String
  ExcludedBefore : List String
  ExcludedAfter : List String
  TargetSubsys : List String
  Instance : Int
  MaxDepth : Int
  Mode : Int
  DBPort : Int
deriving DecidableEq

/-- The package-level `defaultConfig` value, as initialized at program start
(its `cmdlineNeeds` map starts out empty). -/
def defaultConfig : configuration :=
  { cmdlineNeeds := []
    DBTargetDB := "kernel_bin"
    DBUrl := "dbs.hqhome163.com"
    DBUser := "alessandro"
    DBPassword := "<password>"
    Symbol := ""
    Jout := "graphOnly"
    ExcludedBefore := []
    ExcludedAfter := []
    TargetSubsys := []
    Instance := 0
    MaxDepth := 0
    Mode := printSubsys
    DBPort := DBPortNumber }

/-- The handler type `argFunc` from `config.go`, in state-passing form. -/
def argFunc : Type := configuration → List String → Except String configuration

/-- A partial JSON document over the exported `configuration` fields: each
field is present (`some`) or absent (`none`). -/
structure jsonDoc where
  DBTargetDB : Option String
  DBUrl : Option String
  DBUser : Option String
  DBPassword : Option String
  Symbol : Option String
  Jout : Option String
  ExcludedBefore : Option (List String)
  ExcludedAfter : Option (List String)
  TargetSubsys : Option (List String)
  Instance : Option Int
  MaxDepth : Option Int
  Mode : Option Int
  DBPort : Option Int
deriving DecidableEq

/-- The document with no fields present. -/
def emptyDoc : jsonDoc :=
  { DBTargetDB := none, DBUrl := none, DBUser := none, DBPassword := none
    Symbol := none, Jout := none, ExcludedBefore := none, ExcludedAfter := none
    TargetSubsys := none, Instance := none, MaxDepth := none, Mode := none
    DBPort := none }

/-- Embedding of `json.Unmarshal` into `*configuration`: every exported field
present in the document overwrites the configuration field, every absent field
is left untouched, and the unexported `cmdlineNeeds` is never written. -/
def jsonUnmarshal (doc : jsonDoc) (conf : configuration) : configuration :=
  { conf with
    DBTargetDB := doc.DBTargetDB.getD conf.DBTargetDB
    DBUrl := doc.DBUrl.getD conf.DBUrl
    DBUser := doc.DBUser.getD conf.DBUser
    DBPassword := doc.DBPassword.getD conf.DBPassword
    Symbol := doc.Symbol.getD conf.Symbol
    Jout := doc.Jout.getD conf.Jout
    ExcludedBefore := doc.ExcludedBefore.getD conf.ExcludedBefore
    ExcludedAfter := doc.ExcludedAfter.getD conf.ExcludedAfter
    TargetSubsys := doc.TargetSubsys.getD conf.TargetSubsys
    Instance := doc.Instance.getD conf.Instance
    MaxDepth := doc.MaxDepth.getD conf.MaxDepth
    Mode := doc.Mode.getD conf.Mode
    DBPort := doc.DBPort.getD conf.DBPort }

/-- The ambient file system seen by `funcJconf`: a path maps either to an
open/read/decode failure or to the decoded document. -/
def Fs : Type := String → Except String jsonDoc

/-- A file system on which every open fails. -/
def fsNone : Fs := fun _ => .error "open failed"

/-- Handler for `-h` (`funcHelp`): always fails with the help sentinel. -/
def funcHelp : argFunc := fun _ _ => .error "command help"

/-- Handler for `-j` (`funcOutType`): sets `Jout` verbatim. -/
def funcOutType : argFunc := fun conf jout => .ok { conf with Jout := jout.headD "" }

/-- Handler for `-f` (`funcJconf`): opens and decodes the named file, then
overlays the present fields onto the working configuration. -/
def funcJconf (fs : Fs) : argFunc := fun conf fn =>
  match fs (fn.headD "") with
  | .error e => .error e
  | .ok doc => .ok (jsonUnmarshal doc conf)

/-- Handler for `-s` (`funcSymbol`): sets `Symbol` verbatim. -/
def funcSymbol : argFunc := fun conf fn => .ok { conf with Symbol := fn.headD "" }

/-- Handler for `-u` (`funcDBUser`): sets `DBUser` verbatim. -/
def funcDBUser : argFunc := fun conf user => .ok { conf with DBUser := user.headD "" }

/-- Handler for the first `-p` (`funcDBPass`): sets `DBPassword` verbatim. -/
def funcDBPass : argFunc := fun conf pass => .ok { conf with DBPassword := pass.headD "" }

/-- Handler for `-d` (`funcDBHost`): sets `DBUrl` verbatim. -/
def funcDBHost : argFunc := fun conf host => .ok { conf with DBUrl := host.headD "" }

/-- Handler for the second `-p` (`funcDBPort`): parses an integer and sets
`DBPort`. -/
def funcDBPort : argFunc := fun conf port =>
  match goAtoi (port.headD "") with
  | .error e => .error e
  | .ok s => .ok { conf with DBPort := s }

/-- Handler for `-x` (`funcDepth`): parses an integer, requires it to be
nonnegative, sets `MaxDepth`. -/
def funcDepth : argFunc := fun conf depth =>
  match goAtoi (depth.headD "") with
  | .error e => .error e
  | .ok s => if s < 0 then .error "depth must be >= 0" else .ok { conf with MaxDepth := s }

/-- Handler for `-i` (`funcInstance`): parses an integer and sets
`Instance`. -/
def funcInstance : argFunc := fun conf inst =>
  match goAtoi (inst.headD "") with
  | .error e => .error e
  | .ok s => .ok { conf with Instance := s }

/-- Handler for `-m` (`funcMode`): parses an integer, validates it against the
enumerated mode range, sets `Mode`. -/
def funcMode : argFunc := fun conf mode =>
  match goAtoi (mode.headD "") with
  | .error e => .error e
  | .ok s =>
    if s < printAll ∨ OutModeLast ≤ s then .error "unsupported mode"
    else .ok { conf with Mode := s }

/-- The `cmdLineItems` struct from `config.go`. -/
structure cmdLineItems where
  function : argFunc
  switchStr : String
  helpStr : String
  id : Nat
  hasArg : Bool
  needed : Bool

/-- The `pushCmdLineItem` registry constructor: appends a descriptor whose id
is the next sequential position. -/
def pushCmdLineItem (switchStr helpStr : String) (hasArg needed : Bool)
    (function : argFunc) (cmdLine : List cmdLineItems) : List cmdLineItems :=
  cmdLine ++ [{ function := function, switchStr := switchStr, helpStr := helpStr
                id := cmdLine.length + 1, hasArg := hasArg, needed := needed }]

/-- The `cmdLineItemInit` registry, in source registration order; the `-f`
handler closes over the ambient file system. -/
def cmdLineItemInit (fs : Fs) : List cmdLineItems :=
  pushCmdLineItem "-h" "This help" false false funcHelp
    (pushCmdLineItem "-x" "Specify Max depth in call flow exploration" true false funcDepth
      (pushCmdLineItem "-m" "Sets display mode 2=subsystems,1=all" true false funcMode
        (pushCmdLineItem "-p" "Forces use specified DBPort" true false funcDBPort
          (pushCmdLineItem "-d" "Forces use specified DBHost" true false funcDBHost
            (pushCmdLineItem "-p" "Forces use specified password" true false funcDBPass
              (pushCmdLineItem "-u" "Forces use specified database userid" true false funcDBUser
                (pushCmdLineItem "-f" "Specifies config file" true false (funcJconf fs)
                  (pushCmdLineItem "-i" "Specifies instance" true true funcInstance
                    (pushCmdLineItem "-s" "Specifies symbol" true true funcSymbol
                      (pushCmdLineItem "-j" "Force Json output with subsystems data" true false funcOutType
                        []))))))))))

/-- Outcome of one pass of the inner descriptor-scan loop of `argsParse` on a
single token. -/
inductive scanRes where
  | ret (conf : configuration) (e : String)
  | pending (conf : configuration) (f : argFunc)
  | done (conf : configuration)

/-- The inner loop of `argsParse`: scan the catalog in registration order for
descriptors matching the current token; mark mandatory matches in the tracker
at recognition time; an argument-taking match records its handler and breaks;
a no-argument match runs its handler at once (an error aborts the parse) and
the scan continues with later descriptors. -/
def scanLines : List cmdLineItems → String → configuration → scanRes
  | [], _, conf => .done conf
  | a :: rest, tok, conf =>
    if a.switchStr = tok then
      let conf' := if a.needed
        then { conf with cmdlineNeeds := mapSet conf.cmdlineNeeds a.switchStr true }
        else conf
      if a.hasArg then .pending conf' a.function
      else
        match a.function conf' [] with
        | .error e => .ret conf' e
        | .ok conf'' => scanLines rest tok conf''
    else scanLines rest tok conf

/-- Terminal state of the token loop of `argsParse`: either an early return
with an error (a handler failed), or the end of the stream together with the
still-pending handler, if any. -/
inductive loopRes where
  | early (conf : configuration) (e : String)
  | finished (conf : configuration) (pend : Option argFunc)

/-- The outer token loop of `argsParse`: with no pending handler the current
token is scanned against the catalog; with a pending handler the current token
is consumed as its sole argument. -/
def parseLoop (lines : List cmdLineItems) : List String → Option argFunc → configuration → loopRes
  | [], pend, conf => .finished conf pend
  | tok :: rest, none, conf =>
    match scanLines lines tok conf with
    | .ret c e => .early c e
    | .pending c f => parseLoop lines rest (some f) c
    | .done c => parseLoop lines rest none c
  | tok :: rest, some f, conf =>
    match f conf [tok] with
    | .error e => .early conf e
    | .ok c => parseLoop lines rest none c

/-- The tracker-priming loop at the top of `argsParse`: every mandatory
descriptor's entry in the shared map is set to `false`. -/
def initNeeds (lines : List cmdLineItems) (conf : configuration) : configuration :=
  lines.foldl
    (fun c item =>
      if item.needed
      then { c with cmdlineNeeds := mapSet c.cmdlineNeeds item.switchStr false }
      else c)
    conf

/-- The `argsParse` function from `config.go`.  `dflt` is the package-level
`defaultConfig` value as it stands when the call begins (its `cmdlineNeeds`
field holding the shared map's current contents).  On every error path the
returned configuration is the package-level default: its value fields are the
default values, while its `cmdlineNeeds` field is the shared map as mutated by
this very call. -/
def argsParse (lines : List cmdLineItems) (osArgs : List String)
    (dflt : configuration) : configuration × Option String :=
  let conf0 := initNeeds lines dflt
  match parseLoop lines osArgs none conf0 with
  | .early c e => ({ dflt with cmdlineNeeds := c.cmdlineNeeds }, some e)
  | .finished c pend =>
    if pend.isSome then ({ dflt with cmdlineNeeds := c.cmdlineNeeds }, some "missing switch arg")
    else if c.cmdlineNeeds.all (fun kv => kv.2) then (c, none)
    else ({ dflt with cmdlineNeeds := c.cmdlineNeeds }, some "missing needed arg")

/-- The package-level `defaultConfig` value as it stands after a call of
`argsParse`: its value fields were never written, but its `cmdlineNeeds`
field is the shared map, whose contents the call mutated (the returned
configuration always carries those same contents). -/
def defaultAfter (dflt : configuration) (r : configuration × Option String) : configuration :=
  { dflt with cmdlineNeeds := r.1.cmdlineNeeds }

/-! Basic lemmas about the tracker map. -/

theorem lookup_mapSet_self (m : List (String × Bool)) (k : String) (v : Bool) :
    lookup (mapSet m k v) k = some v := by
  induction m with
  | nil => simp [mapSet, lookup]
  | cons kv rest ih =>
    obtain ⟨k', v'⟩ := kv
    by_cases h : k' = k
    · simp [mapSet, lookup, h]
    · simp [mapSet, lookup, h, ih]

theorem lookup_mapSet_ne (m : List (String × Bool)) (k k' : String) (v : Bool)
    (h : k' ≠ k) : lookup (mapSet m k v) k' = lookup m k' := by
  induction m with
  | nil => simp [mapSet, lookup, Ne.symm h]
  | cons kv rest ih =>
    obtain ⟨k0, v0⟩ := kv
    by_cases h0 : k0 = k
    · subst h0
      simp [mapSet, lookup, Ne.symm h]
    · by_cases h1 : k0 = k'
      · simp [mapSet, lookup, h0, h1, h]
      · simp [mapSet, lookup, h0, h1, ih]

theorem all_false_of_lookup (m : List (String × Bool)) (k : String)
    (h : lookup m k = some false) : m.all (fun kv => kv.2) = false := by
  induction m with
  | nil => simp [lookup] at h
  | cons kv rest ih =>
    obtain ⟨k0, v0⟩ := kv
    by_cases h0 : k0 = k
    · simp [lookup, h0] at h
      simp [List.all_cons, h.symm]
    · simp [lookup, h0] at h
      simp [List.all_cons, ih h]

/-! Dispatch characterization of the inner scan loop on the real registry. -/

/-- What the registry scan does with each possible token: every argument-taking
switch selects the handler of its first-registered descriptor (`-p` selects
`funcDBPass`, never `funcDBPort`), `-s` and `-i` are additionally marked in the
tracker at recognition time, `-h` aborts at once with the help sentinel, and
unknown tokens are ignored. -/
def scanChar (fs : Fs) (tok : String) (c : configuration) : scanRes :=
  if "-j" = tok then .pending c funcOutType
  else if "-s" = tok then
    .pending { c with cmdlineNeeds := mapSet c.cmdlineNeeds "-s" true } funcSymbol
  else if "-i" = tok then
    .pending { c with cmdlineNeeds := mapSet c.cmdlineNeeds "-i" true } funcInstance
  else if "-f" = tok then .pending c (funcJconf fs)
  else if "-u" = tok then .pending c funcDBUser
  else if "-p" = tok then .pending c funcDBPass
  else if "-d" = tok then .pending c funcDBHost
  else if "-m" = tok then .pending c funcMode
  else if "-x" = tok then .pending c funcDepth
  else if "-h" = tok then .ret c "command help"
  else .done c

theorem scanLines_eq (fs : Fs) (tok : String) (c : configuration) :
    scanLines (cmdLineItemInit fs) tok c = scanChar fs tok c := by
  by_cases h1 : "-j" = tok
  · subst h1; rfl
  by_cases h2 : "-s" = tok
  · subst h2; rfl
  by_cases h3 : "-i" = tok
  · subst h3; rfl
  by_cases h4 : "-f" = tok
  · subst h4; rfl
  by_cases h5 : "-u" = tok
  · subst h5; rfl
  by_cases h6 : "-p" = tok
  · subst h6; rfl
  by_cases h7 : "-d" = tok
  · subst h7; rfl
  by_cases h8 : "-m" = tok
  · subst h8; rfl
  by_cases h9 : "-x" = tok
  · subst h9; rfl
  by_cases h10 : "-h" = tok
  · subst h10; rfl
  · show scanLines _ tok c = _
    simp only [cmdLineItemInit, pushCmdLineItem, List.nil_append, List.cons_append,
      List.length_nil, List.length_cons, scanLines, scanChar,
      if_neg h1, if_neg h2, if_neg h3, if_neg h4, if_neg h5, if_neg h6, if_neg h7,
      if_neg h8, if_neg h9, if_neg h10]

/-! Splitting lemmas for the outer token loop. -/

theorem parseLoop_append (lines : List cmdLineItems) (xs ys : List String) :
    ∀ (pend : Option argFunc) (conf : configuration),
      parseLoop lines (xs ++ ys) pend conf =
        match parseLoop lines xs pend conf with
        | .early c e => .early c e
        | .finished c p => parseLoop lines ys p c := by
  induction xs with
  | nil => intro pend conf; rfl
  | cons tok rest ih =>
    intro pend conf
    cases pend with
    | none =>
      show (match scanLines lines tok conf with
        | .ret c e => loopRes.early c e
        | .pending c f => parseLoop lines (rest ++ ys) (some f) c
        | .done c => parseLoop lines (rest ++ ys) none c) =
        match (match scanLines lines tok conf with
          | .ret c e => loopRes.early c e
          | .pending c f => parseLoop lines rest (some f) c
          | .done c => parseLoop lines rest none c) with
        | .early c e => .early c e
        | .finished c p => parseLoop lines ys p c
      cases scanLines lines tok conf with
      | ret c e => rfl
      | pending c f => exact ih (some f) c
      | done c => exact ih none c
    | some f =>
      show (match f conf [tok] with
        | .error e => loopRes.early conf e
        | .ok c => parseLoop lines (rest ++ ys) none c) =
        match (match f conf [tok] with
          | .error e => loopRes.early conf e
          | .ok c => parseLoop lines rest none c) with
        | .early c e => .early c e
        | .finished c p => parseLoop lines ys p c
      cases f conf [tok] with
      | error e => rfl
      | ok c => exact ih none c

/-! Specification-side model for resolution claims: a token stream made of
switch/argument pairs, applied left to right, later pairs overriding earlier
ones.  These definitions follow the spec's words and are compared with the
parser by refinement. -/

/-- Value of `goAtoi` with a fallback for the failure case. -/
def atoiD (s : String) (d : Int) : Int :=
  match goAtoi s with
  | .ok n => n
  | .error _ => d

/-- A switch/argument pair that its handler accepts: either a verbatim string
switch, or a numeric switch whose argument parses (and passes the handler's
range check). -/
def specValidPair (t v : String) : Prop :=
  t = "-j" ∨ t = "-s" ∨ t = "-u" ∨ t = "-p" ∨ t = "-d" ∨
  (t = "-i" ∧ ∃ n, goAtoi v = Except.ok n) ∨
  (t = "-x" ∧ ∃ n, goAtoi v = Except.ok n ∧ 0 ≤ n) ∨
  (t = "-m" ∧ ∃ n, goAtoi v = Except.ok n ∧ printAll ≤ n ∧ n < OutModeLast)

/-- The token stream spelled by a list of switch/argument pairs. -/
def flattenPairs : List (String × String) → List String
  | [] => []
  | p :: ps => p.1 :: p.2 :: flattenPairs ps

/-- The argument of the last occurrence of switch `tok` in the pair list. -/
def lastVal (tok : String) : List (String × String) → Option String
  | [] => none
  | p :: ps =>
    match lastVal tok ps with
    | some v => some v
    | none => if p.1 = tok then some p.2 else none

/-- The field overwrite performed by one switch/argument pair, per the spec's
handler table. -/
def specApplyPair (c : configuration) (p : String × String) : configuration :=
  { c with
    Jout := if p.1 = "-j" then p.2 else c.Jout
    Symbol := if p.1 = "-s" then p.2 else c.Symbol
    DBUser := if p.1 = "-u" then p.2 else c.DBUser
    DBPassword := if p.1 = "-p" then p.2 else c.DBPassword
    DBUrl := if p.1 = "-d" then p.2 else c.DBUrl
    Instance := if p.1 = "-i" then atoiD p.2 0 else c.Instance
    MaxDepth := if p.1 = "-x" then atoiD p.2 0 else c.MaxDepth
    Mode := if p.1 = "-m" then atoiD p.2 0 else c.Mode }

/-- The tracker mark performed when a mandatory switch token is recognized. -/
def specTrack (c : configuration) (p : String × String) : configuration :=
  if p.1 = "-s" ∨ p.1 = "-i"
  then { c with cmdlineNeeds := mapSet c.cmdlineNeeds p.1 true }
  else c

/-- One resolution step: mark the tracker, then overwrite the field. -/
def specStep (c : configuration) (p : String × String) : configuration :=
  specApplyPair (specTrack c p) p

/-- Resolution of a whole pair list, left to right. -/
def specRun (c : configuration) : List (String × String) → configuration
  | [] => c
  | p :: ps => specRun (specStep c p) ps

/-! Handler evaluation lemmas for valid numeric arguments. -/

theorem atoiD_eq (v : String) (n : Int) (hn : goAtoi v = Except.ok n) :
    atoiD v 0 = n := by
  unfold atoiD; rw [hn]

theorem funcInstance_eval (c : configuration) (v : String) (n : Int)
    (hn : goAtoi v = Except.ok n) :
    funcInstance c [v] = Except.ok { c with Instance := n } := by
  show (match goAtoi v with
    | .error e => Except.error e
    | .ok s => Except.ok { c with Instance := s }) = _
  rw [hn]

theorem funcDepth_eval (c : configuration) (v : String) (n : Int)
    (hn : goAtoi v = Except.ok n) (h0 : 0 ≤ n) :
    funcDepth c [v] = Except.ok { c with MaxDepth := n } := by
  show (match goAtoi v with
    | .error e => Except.error e
    | .ok s => if s < 0 then Except.error "depth must be >= 0"
      else Except.ok { c with MaxDepth := s }) = _
  rw [hn]
  show (if n < 0 then Except.error "depth must be >= 0"
    else Except.ok { c with MaxDepth := n }) = _
  rw [if_neg (not_lt.mpr h0)]

theorem funcMode_eval (c : configuration) (v : String) (n : Int)
    (hn : goAtoi v = Except.ok n) (h1 : printAll ≤ n) (h2 : n < OutModeLast) :
    funcMode c [v] = Except.ok { c with Mode := n } := by
  show (match goAtoi v with
    | .error e => Except.error e
    | .ok s => if s < printAll ∨ OutModeLast ≤ s then Except.error "unsupported mode"
      else Except.ok { c with Mode := s }) = _
  rw [hn]
  show (if n < printAll ∨ OutModeLast ≤ n then Except.error "unsupported mode"
    else Except.ok { c with Mode := n }) = _
  rw [if_neg (not_or.mpr ⟨not_lt.mpr h1, not_le.mpr h2⟩)]

/-- One valid switch/argument pair advances the parser exactly as one
specification step. -/
theorem parseLoop_step_pair (fs : Fs) (t v : String) (rest : List String)
    (conf : configuration) (hv : specValidPair t v) :
    parseLoop (cmdLineItemInit fs) (t :: v :: rest) none conf =
      parseLoop (cmdLineItemInit fs) rest none (specStep conf (t, v)) := by
  rcases hv with h | h | h | h | h | ⟨h, n, hn⟩ | ⟨h, n, hn, h0⟩ | ⟨h, n, hn, h1, h2⟩
  · subst h; rfl
  · subst h; rfl
  · subst h; rfl
  · subst h; rfl
  · subst h; rfl
  · subst h
    have hm : parseLoop (cmdLineItemInit fs) ("-i" :: v :: rest) none conf =
        match funcInstance { conf with cmdlineNeeds := mapSet conf.cmdlineNeeds "-i" true } [v] with
        | .error e => loopRes.early { conf with cmdlineNeeds := mapSet conf.cmdlineNeeds "-i" true } e
        | .ok c => parseLoop (cmdLineItemInit fs) rest none c := rfl
    rw [hm, funcInstance_eval _ v n hn]
    have hs : specStep conf ("-i", v) =
        { conf with cmdlineNeeds := mapSet conf.cmdlineNeeds "-i" true, Instance := atoiD v 0 } := rfl
    rw [hs, atoiD_eq v n hn]
  · subst h
    have hm : parseLoop (cmdLineItemInit fs) ("-x" :: v :: rest) none conf =
        match funcDepth conf [v] with
        | .error e => loopRes.early conf e
        | .ok c => parseLoop (cmdLineItemInit fs) rest none c := rfl
    rw [hm, funcDepth_eval _ v n hn h0]
    have hs : specStep conf ("-x", v) = { conf with MaxDepth := atoiD v 0 } := rfl
    rw [hs, atoiD_eq v n hn]
  · subst h
    have hm : parseLoop (cmdLineItemInit fs) ("-m" :: v :: rest) none conf =
        match funcMode conf [v] with
        | .error e => loopRes.early conf e
        | .ok c => parseLoop (cmdLineItemInit fs) rest none c := rfl
    rw [hm, funcMode_eval _ v n hn h1 h2]
    have hs : specStep conf ("-m", v) = { conf with Mode := atoiD v 0 } := rfl
    rw [hs, atoiD_eq v n hn]

/-- The parser resolves a stream of valid pairs exactly to the specification
run, ending ready-for-switch with no error. -/
theorem parseLoop_specRun (fs : Fs) (ps : List (String × String)) :
    ∀ conf, (∀ p ∈ ps, specValidPair p.1 p.2) →
      parseLoop (cmdLineItemInit fs) (flattenPairs ps) none conf =
        .finished (specRun conf ps) none := by
  induction ps with
  | nil => intro conf _; rfl
  | cons p ps ih =>
    intro conf hv
    obtain ⟨t, v⟩ := p
    show parseLoop (cmdLineItemInit fs) (t :: v :: flattenPairs ps) none conf = _
    rw [parseLoop_step_pair fs t v (flattenPairs ps) conf (hv (t, v) (List.mem_cons_self _ _))]
    exact ih (specStep conf (t, v)) (fun q hq => hv q (List.mem_cons_of_mem _ hq))

/-! Small computation lemmas for `mapSet` on two-entry maps. -/

theorem mapSet_cons_eq (k : String) (v0 v : Bool) (rest : List (String × Bool)) :
    mapSet ((k, v0) :: rest) k v = (k, v) :: rest := by
  simp [mapSet]

theorem mapSet_cons_ne (k0 k : String) (v0 v : Bool) (rest : List (String × Bool))
    (h : k0 ≠ k) : mapSet ((k0, v0) :: rest) k v = (k0, v0) :: mapSet rest k v := by
  simp only [mapSet, if_neg h]

/-- Tracker contents after a specification run: each mandatory entry is its
initial value disjoined with the presence of its switch in the pair list. -/
theorem specRun_needs (ps : List (String × String)) :
    ∀ (c : configuration) (b1 b2 : Bool),
      c.cmdlineNeeds = [("-s", b1), ("-i", b2)] →
      (specRun c ps).cmdlineNeeds =
        [("-s", b1 || ps.any fun p => p.1 == "-s"),
         ("-i", b2 || ps.any fun p => p.1 == "-i")] := by
  induction ps with
  | nil => intro c b1 b2 hc; simpa using hc
  | cons p ps ih =>
    intro c b1 b2 hc
    show (specRun (specStep c p) ps).cmdlineNeeds = _
    have htrack : (specStep c p).cmdlineNeeds = (specTrack c p).cmdlineNeeds := rfl
    by_cases hs : p.1 = "-s"
    · have h1 : (specStep c p).cmdlineNeeds = [("-s", true), ("-i", b2)] := by
        rw [htrack]
        unfold specTrack
        rw [if_pos (Or.inl hs), hs, hc, mapSet_cons_eq]
      rw [ih _ true b2 h1]
      rw [List.any_cons, List.any_cons, hs]
      rw [show (("-s" : String) == "-s") = true from rfl,
        show (("-s" : String) == "-i") = false from rfl]
      simp only [Bool.true_or, Bool.or_true, Bool.false_or]
    · by_cases hi : p.1 = "-i"
      · have h1 : (specStep c p).cmdlineNeeds = [("-s", b1), ("-i", true)] := by
          rw [htrack]
          unfold specTrack
          rw [if_pos (Or.inr hi), hi, hc, mapSet_cons_ne _ _ _ _ _ (by decide),
            mapSet_cons_eq]
        rw [ih _ b1 true h1]
        rw [List.any_cons, List.any_cons, hi]
        rw [show (("-i" : String) == "-s") = false from rfl,
          show (("-i" : String) == "-i") = true from rfl]
        simp only [Bool.true_or, Bool.or_true, Bool.false_or]
      · have h1 : (specStep c p).cmdlineNeeds = [("-s", b1), ("-i", b2)] := by
          rw [htrack]
          unfold specTrack
          rw [if_neg (not_or.mpr ⟨hs, hi⟩)]
          exact hc
        rw [ih _ b1 b2 h1]
        rw [List.any_cons, List.any_cons]
        rw [show (p.1 == "-s") = false from beq_eq_false_iff_ne.mpr hs,
          show (p.1 == "-i") = false from beq_eq_false_iff_ne.mpr hi]
        simp only [Bool.false_or]

/-! Field projections of one specification step. -/

theorem specTrack_value_fields (c : configuration) (p : String × String) :
    (specTrack c p).DBTargetDB = c.DBTargetDB ∧
    (specTrack c p).DBUrl = c.DBUrl ∧
    (specTrack c p).DBUser = c.DBUser ∧
    (specTrack c p).DBPassword = c.DBPassword ∧
    (specTrack c p).Symbol = c.Symbol ∧
    (specTrack c p).Jout = c.Jout ∧
    (specTrack c p).ExcludedBefore = c.ExcludedBefore ∧
    (specTrack c p).ExcludedAfter = c.ExcludedAfter ∧
    (specTrack c p).TargetSubsys = c.TargetSubsys ∧
    (specTrack c p).Instance = c.Instance ∧
    (specTrack c p).MaxDepth = c.MaxDepth ∧
    (specTrack c p).Mode = c.Mode ∧
    (specTrack c p).DBPort = c.DBPort := by
  unfold specTrack
  split <;> exact ⟨rfl, rfl, rfl, rfl, rfl, rfl, rfl, rfl, rfl, rfl, rfl, rfl, rfl⟩

theorem specStep_Symbol (c : configuration) (p : String × String) :
    (specStep c p).Symbol = if p.1 = "-s" then p.2 else c.Symbol := by
  show (if p.1 = "-s" then p.2 else (specTrack c p).Symbol) = _
  rw [(specTrack_value_fields c p).2.2.2.2.1]

theorem specStep_Jout (c : configuration) (p : String × String) :
    (specStep c p).Jout = if p.1 = "-j" then p.2 else c.Jout := by
  show (if p.1 = "-j" then p.2 else (specTrack c p).Jout) = _
  rw [(specTrack_value_fields c p).2.2.2.2.2.1]

theorem specStep_DBUser (c : configuration) (p : String × String) :
    (specStep c p).DBUser = if p.1 = "-u" then p.2 else c.DBUser := by
  show (if p.1 = "-u" then p.2 else (specTrack c p).DBUser) = _
  rw [(specTrack_value_fields c p).2.2.1]

theorem specStep_DBPassword (c : configuration) (p : String × String) :
    (specStep c p).DBPassword = if p.1 = "-p" then p.2 else c.DBPassword := by
  show (if p.1 = "-p" then p.2 else (specTrack c p).DBPassword) = _
  rw [(specTrack_value_fields c p).2.2.2.1]

theorem specStep_DBUrl (c : configuration) (p : String × String) :
    (specStep c p).DBUrl = if p.1 = "-d" then p.2 else c.DBUrl := by
  show (if p.1 = "-d" then p.2 else (specTrack c p).DBUrl) = _
  rw [(specTrack_value_fields c p).2.1]

theorem specStep_Instance (c : configuration) (p : String × String) :
    (specStep c p).Instance = if p.1 = "-i" then atoiD p.2 0 else c.Instance := by
  show (if p.1 = "-i" then atoiD p.2 0 else (specTrack c p).Instance) = _
  rw [(specTrack_value_fields c p).2.2.2.2.2.2.2.2.2.1]

theorem specStep_MaxDepth (c : configuration) (p : String × String) :
    (specStep c p).MaxDepth = if p.1 = "-x" then atoiD p.2 0 else c.MaxDepth := by
  show (if p.1 = "-x" then atoiD p.2 0 else (specTrack c p).MaxDepth) = _
  rw [(specTrack_value_fields c p).2.2.2.2.2.2.2.2.2.2.1]

theorem specStep_Mode (c : configuration) (p : String × String) :
    (specStep c p).Mode = if p.1 = "-m" then atoiD p.2 0 else c.Mode := by
  show (if p.1 = "-m" then atoiD p.2 0 else (specTrack c p).Mode) = _
  rw [(specTrack_value_fields c p).2.2.2.2.2.2.2.2.2.2.2.1]

theorem specStep_untouched (c : configuration) (p : String × String) :
    (specStep c p).DBTargetDB = c.DBTargetDB ∧
    (specStep c p).DBPort = c.DBPort ∧
    (specStep c p).ExcludedBefore = c.ExcludedBefore ∧
    (specStep c p).ExcludedAfter = c.ExcludedAfter ∧
    (specStep c p).TargetSubsys = c.TargetSubsys := by
  have h := specTrack_value_fields c p
  exact ⟨h.1, h.2.2.2.2.2.2.2.2.2.2.2.2, h.2.2.2.2.2.2.1, h.2.2.2.2.2.2.2.1,
    h.2.2.2.2.2.2.2.2.1⟩

/-! Last-occurrence-wins characterization of a specification run, one lemma
per command-line-settable field. -/

theorem lastVal_cons_some (tok : String) (p : String × String)
    (ps : List (String × String)) (v : String) (h : lastVal tok ps = some v) :
    lastVal tok (p :: ps) = some v := by
  simp only [lastVal, h]

theorem lastVal_cons_none (tok : String) (p : String × String)
    (ps : List (String × String)) (h : lastVal tok ps = none) :
    lastVal tok (p :: ps) = if p.1 = tok then some p.2 else none := by
  simp only [lastVal, h]

theorem specRun_Symbol (ps : List (String × String)) :
    ∀ c : configuration, (specRun c ps).Symbol = (lastVal "-s" ps).getD c.Symbol := by
  induction ps with
  | nil => intro c; rfl
  | cons p ps ih =>
    intro c
    rw [show specRun c (p :: ps) = specRun (specStep c p) ps from rfl, ih]
    cases h : lastVal "-s" ps with
    | some v => rw [lastVal_cons_some "-s" p ps v h]; rfl
    | none =>
      rw [lastVal_cons_none "-s" p ps h, specStep_Symbol]
      by_cases hp : p.1 = "-s"
      · rw [if_pos hp, if_pos hp]; rfl
      · rw [if_neg hp, if_neg hp]

theorem specRun_Jout (ps : List (String × String)) :
    ∀ c : configuration, (specRun c ps).Jout = (lastVal "-j" ps).getD c.Jout := by
  induction ps with
  | nil => intro c; rfl
  | cons p ps ih =>
    intro c
    rw [show specRun c (p :: ps) = specRun (specStep c p) ps from rfl, ih]
    cases h : lastVal "-j" ps with
    | some v => rw [lastVal_cons_some "-j" p ps v h]; rfl
    | none =>
      rw [lastVal_cons_none "-j" p ps h, specStep_Jout]
      by_cases hp : p.1 = "-j"
      · rw [if_pos hp, if_pos hp]; rfl
      · rw [if_neg hp, if_neg hp]

theorem specRun_DBUser (ps : List (String × String)) :
    ∀ c : configuration, (specRun c ps).DBUser = (lastVal "-u" ps).getD c.DBUser := by
  induction ps with
  | nil => intro c; rfl
  | cons p ps ih =>
    intro c
    rw [show specRun c (p :: ps) = specRun (specStep c p) ps from rfl, ih]
    cases h : lastVal "-u" ps with
    | some v => rw [lastVal_cons_some "-u" p ps v h]; rfl
    | none =>
      rw [lastVal_cons_none "-u" p ps h, specStep_DBUser]
      by_cases hp : p.1 = "-u"
      · rw [if_pos hp, if_pos hp]; rfl
      · rw [if_neg hp, if_neg hp]

theorem specRun_DBPassword (ps : List (String × String)) :
    ∀ c : configuration, (specRun c ps).DBPassword = (lastVal "-p" ps).getD c.DBPassword := by
  induction ps with
  | nil => intro c; rfl
  | cons p ps ih =>
    intro c
    rw [show specRun c (p :: ps) = specRun (specStep c p) ps from rfl, ih]
    cases h : lastVal "-p" ps with
    | some v => rw [lastVal_cons_some "-p" p ps v h]; rfl
    | none =>
      rw [lastVal_cons_none "-p" p ps h, specStep_DBPassword]
      by_cases hp : p.1 = "-p"
      · rw [if_pos hp, if_pos hp]; rfl
      · rw [if_neg hp, if_neg hp]

theorem specRun_DBUrl (ps : List (String × String)) :
    ∀ c : configuration, (specRun c ps).DBUrl = (lastVal "-d" ps).getD c.DBUrl := by
  induction ps with
  | nil => intro c; rfl
  | cons p ps ih =>
    intro c
    rw [show specRun c (p :: ps) = specRun (specStep c p) ps from rfl, ih]
    cases h : lastVal "-d" ps with
    | some v => rw [lastVal_cons_some "-d" p ps v h]; rfl
    | none =>
      rw [lastVal_cons_none "-d" p ps h, specStep_DBUrl]
      by_cases hp : p.1 = "-d"
      · rw [if_pos hp, if_pos hp]; rfl
      · rw [if_neg hp, if_neg hp]

theorem specRun_Instance (ps : List (String × String)) :
    ∀ c : configuration, (specRun c ps).Instance =
      ((lastVal "-i" ps).map fun s => atoiD s 0).getD c.Instance := by
  induction ps with
  | nil => intro c; rfl
  | cons p ps ih =>
    intro c
    rw [show specRun c (p :: ps) = specRun (specStep c p) ps from rfl, ih]
    cases h : lastVal "-i" ps with
    | some v => rw [lastVal_cons_some "-i" p ps v h]; rfl
    | none =>
      rw [lastVal_cons_none "-i" p ps h, specStep_Instance]
      by_cases hp : p.1 = "-i"
      · rw [if_pos hp, if_pos hp]; rfl
      · rw [if_neg hp, if_neg hp]

theorem specRun_MaxDepth (ps : List (String × String)) :
    ∀ c : configuration, (specRun c ps).MaxDepth =
      ((lastVal "-x" ps).map fun s => atoiD s 0).getD c.MaxDepth := by
  induction ps with
  | nil => intro c; rfl
  | cons p ps ih =>
    intro c
    rw [show specRun c (p :: ps) = specRun (specStep c p) ps from rfl, ih]
    cases h : lastVal "-x" ps with
    | some v => rw [lastVal_cons_some "-x" p ps v h]; rfl
    | none =>
      rw [lastVal_cons_none "-x" p ps h, specStep_MaxDepth]
      by_cases hp : p.1 = "-x"
      · rw [if_pos hp, if_pos hp]; rfl
      · rw [if_neg hp, if_neg hp]

theorem specRun_Mode (ps : List (String × String)) :
    ∀ c : configuration, (specRun c ps).Mode =
      ((lastVal "-m" ps).map fun s => atoiD s 0).getD c.Mode := by
  induction ps with
  | nil => intro c; rfl
  | cons p ps ih =>
    intro c
    rw [show specRun c (p :: ps) = specRun (specStep c p) ps from rfl, ih]
    cases h : lastVal "-m" ps with
    | some v => rw [lastVal_cons_some "-m" p ps v h]; rfl
    | none =>
      rw [lastVal_cons_none "-m" p ps h, specStep_Mode]
      by_cases hp : p.1 = "-m"
      · rw [if_pos hp, if_pos hp]; rfl
      · rw [if_neg hp, if_neg hp]

/-- Fields with no command-line switch are never changed by a specification
run. -/
theorem specRun_untouched (ps : List (String × String)) :
    ∀ c : configuration,
      (specRun c ps).DBTargetDB = c.DBTargetDB ∧
      (specRun c ps).DBPort = c.DBPort ∧
      (specRun c ps).ExcludedBefore = c.ExcludedBefore ∧
      (specRun c ps).ExcludedAfter = c.ExcludedAfter ∧
      (specRun c ps).TargetSubsys = c.TargetSubsys := by
  induction ps with
  | nil => intro c; exact ⟨rfl, rfl, rfl, rfl, rfl⟩
  | cons p ps ih =>
    intro c
    have h := specStep_untouched c p
    have h2 := ih (specStep c p)
    exact ⟨h2.1.trans h.1, h2.2.1.trans h.2.1, h2.2.2.1.trans h.2.2.1,
      h2.2.2.2.1.trans h.2.2.2.1, h2.2.2.2.2.trans h.2.2.2.2⟩

/-! Outcome dispatch lemmas for `argsParse`. -/

theorem argsParse_match_form (lines : List cmdLineItems) (osArgs : List String)
    (dflt : configuration) :
    argsParse lines osArgs dflt =
      match parseLoop lines osArgs none (initNeeds lines dflt) with
      | .early c e => ({ dflt with cmdlineNeeds := c.cmdlineNeeds }, some e)
      | .finished c pend =>
        if pend.isSome then ({ dflt with cmdlineNeeds := c.cmdlineNeeds }, some "missing switch arg")
        else if c.cmdlineNeeds.all (fun kv => kv.2) then (c, none)
        else ({ dflt with cmdlineNeeds := c.cmdlineNeeds }, some "missing needed arg") := rfl

theorem argsParse_early_eq (lines : List cmdLineItems) (osArgs : List String)
    (dflt : configuration) (c : configuration) (e : String)
    (h : parseLoop lines osArgs none (initNeeds lines dflt) = .early c e) :
    argsParse lines osArgs dflt = ({ dflt with cmdlineNeeds := c.cmdlineNeeds }, some e) := by
  rw [argsParse_match_form, h]

theorem argsParse_finished_ok (lines : List cmdLineItems) (osArgs : List String)
    (dflt : configuration) (c : configuration)
    (h : parseLoop lines osArgs none (initNeeds lines dflt) = .finished c none)
    (hall : (c.cmdlineNeeds.all fun kv => kv.2) = true) :
    argsParse lines osArgs dflt = (c, none) := by
  rw [argsParse_match_form, h]
  simp [hall]

theorem argsParse_finished_missing (lines : List cmdLineItems) (osArgs : List String)
    (dflt : configuration) (c : configuration)
    (h : parseLoop lines osArgs none (initNeeds lines dflt) = .finished c none)
    (hall : (c.cmdlineNeeds.all fun kv => kv.2) = false) :
    argsParse lines osArgs dflt =
      ({ dflt with cmdlineNeeds := c.cmdlineNeeds }, some "missing needed arg") := by
  rw [argsParse_match_form, h]
  simp [hall]

theorem argsParse_finished_pending (lines : List cmdLineItems) (osArgs : List String)
    (dflt : configuration) (c : configuration) (f : argFunc)
    (h : parseLoop lines osArgs none (initNeeds lines dflt) = .finished c (some f)) :
    argsParse lines osArgs dflt =
      ({ dflt with cmdlineNeeds := c.cmdlineNeeds }, some "missing switch arg") := by
  rw [argsParse_match_form, h]
  rfl

/-- C1: for every token stream of switch/argument pairs in which every pair is
valid for its handler and both mandatory switches (`-s` and `-i`) occur,
`argsParse` resolves successfully; every command-line-settable field holds the
value of the last occurrence of its switch (later occurrences override earlier
ones, fields whose switch never occurs keep their default), and fields with no
reachable switch keep their default values. -/
theorem argsParse_last_occurrence_wins (fs : Fs) (ps : List (String × String))
    (hv : ∀ p ∈ ps, specValidPair p.1 p.2)
    (hs : "-s" ∈ ps.map Prod.fst) (hi : "-i" ∈ ps.map Prod.fst) :
    (argsParse (cmdLineItemInit fs) (flattenPairs ps) defaultConfig).2 = none ∧
    (argsParse (cmdLineItemInit fs) (flattenPairs ps) defaultConfig).1.Symbol =
      (lastVal "-s" ps).getD defaultConfig.Symbol ∧
    (argsParse (cmdLineItemInit fs) (flattenPairs ps) defaultConfig).1.Jout =
      (lastVal "-j" ps).getD defaultConfig.Jout ∧
    (argsParse (cmdLineItemInit fs) (flattenPairs ps) defaultConfig).1.DBUser =
      (lastVal "-u" ps).getD defaultConfig.DBUser ∧
    (argsParse (cmdLineItemInit fs) (flattenPairs ps) defaultConfig).1.DBPassword =
      (lastVal "-p" ps).getD defaultConfig.DBPassword ∧
    (argsParse (cmdLineItemInit fs) (flattenPairs ps) defaultConfig).1.DBUrl =
      (lastVal "-d" ps).getD defaultConfig.DBUrl ∧
    (argsParse (cmdLineItemInit fs) (flattenPairs ps) defaultConfig).1.Instance =
      ((lastVal "-i" ps).map fun s => atoiD s 0).getD defaultConfig.Instance ∧
    (argsParse (cmdLineItemInit fs) (flattenPairs ps) defaultConfig).1.MaxDepth =
      ((lastVal "-x" ps).map fun s => atoiD s 0).getD defaultConfig.MaxDepth ∧
    (argsParse (cmdLineItemInit fs) (flattenPairs ps) defaultConfig).1.Mode =
      ((lastVal "-m" ps).map fun s => atoiD s 0).getD defaultConfig.Mode ∧
    (argsParse (cmdLineItemInit fs) (flattenPairs ps) defaultConfig).1.DBTargetDB =
      defaultConfig.DBTargetDB ∧
    (argsParse (cmdLineItemInit fs) (flattenPairs ps) defaultConfig).1.DBPort =
      defaultConfig.DBPort ∧
    (argsParse (cmdLineItemInit fs) (flattenPairs ps) defaultConfig).1.ExcludedBefore =
      defaultConfig.ExcludedBefore ∧
    (argsParse (cmdLineItemInit fs) (flattenPairs ps) defaultConfig).1.ExcludedAfter =
      defaultConfig.ExcludedAfter ∧
    (argsParse (cmdLineItemInit fs) (flattenPairs ps) defaultConfig).1.TargetSubsys =
      defaultConfig.TargetSubsys := by
  have hrun := parseLoop_specRun fs ps (initNeeds (cmdLineItemInit fs) defaultConfig) hv
  have hneeds := specRun_needs ps (initNeeds (cmdLineItemInit fs) defaultConfig) false false rfl
  have hsa : (ps.any fun p => p.1 == "-s") = true := by
    rcases List.mem_map.mp hs with ⟨p, hp, hfst⟩
    exact List.any_eq_true.mpr ⟨p, hp, by rw [hfst]; rfl⟩
  have hia : (ps.any fun p => p.1 == "-i") = true := by
    rcases List.mem_map.mp hi with ⟨p, hp, hfst⟩
    exact List.any_eq_true.mpr ⟨p, hp, by rw [hfst]; rfl⟩
  have hall : ((specRun (initNeeds (cmdLineItemInit fs) defaultConfig) ps).cmdlineNeeds.all
      fun kv => kv.2) = true := by
    rw [hneeds, hsa, hia]
    rfl
  have hout := argsParse_finished_ok (cmdLineItemInit fs) (flattenPairs ps) defaultConfig _ hrun hall
  rw [hout]
  have hu := specRun_untouched ps (initNeeds (cmdLineItemInit fs) defaultConfig)
  refine ⟨rfl, ?_, ?_, ?_, ?_, ?_, ?_, ?_, ?_, ?_, ?_, ?_, ?_, ?_⟩
  · rw [show ((specRun (initNeeds (cmdLineItemInit fs) defaultConfig) ps, (none : Option String)).1) =
      specRun (initNeeds (cmdLineItemInit fs) defaultConfig) ps from rfl, specRun_Symbol]
    rfl
  · rw [show ((specRun (initNeeds (cmdLineItemInit fs) defaultConfig) ps, (none : Option String)).1) =
      specRun (initNeeds (cmdLineItemInit fs) defaultConfig) ps from rfl, specRun_Jout]
    rfl
  · rw [show ((specRun (initNeeds (cmdLineItemInit fs) defaultConfig) ps, (none : Option String)).1) =
      specRun (initNeeds (cmdLineItemInit fs) defaultConfig) ps from rfl, specRun_DBUser]
    rfl
  · rw [show ((specRun (initNeeds (cmdLineItemInit fs) defaultConfig) ps, (none : Option String)).1) =
      specRun (initNeeds (cmdLineItemInit fs) defaultConfig) ps from rfl, specRun_DBPassword]
    rfl
  · rw [show ((specRun (initNeeds (cmdLineItemInit fs) defaultConfig) ps, (none : Option String)).1) =
      specRun (initNeeds (cmdLineItemInit fs) defaultConfig) ps from rfl, specRun_DBUrl]
    rfl
  · rw [show ((specRun (initNeeds (cmdLineItemInit fs) defaultConfig) ps, (none : Option String)).1) =
      specRun (initNeeds (cmdLineItemInit fs) defaultConfig) ps from rfl, specRun_Instance]
    rfl
  · rw [show ((specRun (initNeeds (cmdLineItemInit fs) defaultConfig) ps, (none : Option String)).1) =
      specRun (initNeeds (cmdLineItemInit fs) defaultConfig) ps from rfl, specRun_MaxDepth]
    rfl
  · rw [show ((specRun (initNeeds (cmdLineItemInit fs) defaultConfig) ps, (none : Option String)).1) =
      specRun (initNeeds (cmdLineItemInit fs) defaultConfig) ps from rfl, specRun_Mode]
    rfl
  · exact hu.1.trans rfl
  · exact hu.2.1.trans rfl
  · exact hu.2.2.1.trans rfl
  · exact hu.2.2.2.1.trans rfl
  · exact hu.2.2.2.2.trans rfl

/-- Witness for C1 at a concrete stream with a repeated mandatory switch. -/
theorem argsParse_last_occurrence_wins_witness :
    (argsParse (cmdLineItemInit fsNone)
      (flattenPairs [("-s", "foo"), ("-i", "2"), ("-s", "bar")]) defaultConfig).2 = none ∧
    (argsParse (cmdLineItemInit fsNone)
      (flattenPairs [("-s", "foo"), ("-i", "2"), ("-s", "bar")]) defaultConfig).1.Symbol = "bar" ∧
    (argsParse (cmdLineItemInit fsNone)
      (flattenPairs [("-s", "foo"), ("-i", "2"), ("-s", "bar")]) defaultConfig).1.Instance = 2 ∧
    (argsParse (cmdLineItemInit fsNone)
      (flattenPairs [("-s", "foo"), ("-i", "2"), ("-s", "bar")]) defaultConfig).1.DBUser =
      "alessandro" := by
  have hv : ∀ p ∈ [("-s", "foo"), ("-i", "2"), ("-s", "bar")], specValidPair p.1 p.2 := by
    intro p hp
    simp only [List.mem_cons, List.not_mem_nil, or_false] at hp
    rcases hp with rfl | rfl | rfl
    · exact Or.inr (Or.inl rfl)
    · exact Or.inr (Or.inr (Or.inr (Or.inr (Or.inr (Or.inl ⟨rfl, 2, rfl⟩)))))
    · exact Or.inr (Or.inl rfl)
  have h := argsParse_last_occurrence_wins fsNone [("-s", "foo"), ("-i", "2"), ("-s", "bar")]
    hv (by decide) (by decide)
  exact ⟨h.1, h.2.1.trans rfl, h.2.2.2.2.2.2.1.trans rfl, h.2.2.2.1.trans rfl⟩

/-! Loop-step equations and the registry run invariant. -/

theorem parseLoop_cons_none (lines : List cmdLineItems) (tok : String)
    (rest : List String) (conf : configuration) :
    parseLoop lines (tok :: rest) none conf =
      match scanLines lines tok conf with
      | .ret c e => .early c e
      | .pending c f => parseLoop lines rest (some f) c
      | .done c => parseLoop lines rest none c := rfl

theorem parseLoop_cons_some (lines : List cmdLineItems) (tok : String)
    (rest : List String) (f : argFunc) (conf : configuration) :
    parseLoop lines (tok :: rest) (some f) conf =
      match f conf [tok] with
      | .error e => .early conf e
      | .ok c => parseLoop lines rest none c := rfl

/-- The handlers that the registry scan can leave pending (every
argument-taking descriptor's handler; `funcDBPort` is shadowed and absent). -/
def handlerSet (fs : Fs) : List argFunc :=
  [funcOutType, funcSymbol, funcInstance, funcJconf fs, funcDBUser, funcDBPass,
   funcDBHost, funcMode, funcDepth]

/-- Invariant on the pending handler of the token loop. -/
def pendOK (fs : Fs) : Option argFunc → Prop
  | none => True
  | some f => f ∈ handlerSet fs

/-- Every reachable handler leaves the tracker untouched on success, and
leaves `DBPort` untouched as long as the file system never supplies a
`DBPort` field. -/
theorem handlerSet_preserves (fs : Fs) (f : argFunc) (hf : f ∈ handlerSet fs)
    (c : configuration) (a : List String) (c' : configuration)
    (h : f c a = Except.ok c') :
    c'.cmdlineNeeds = c.cmdlineNeeds ∧
    ((∀ q doc, fs q = Except.ok doc → doc.DBPort = none) → c'.DBPort = c.DBPort) := by
  simp only [handlerSet, List.mem_cons, List.not_mem_nil, or_false] at hf
  rcases hf with rfl | rfl | rfl | rfl | rfl | rfl | rfl | rfl | rfl
  · have h2 := Except.ok.inj h
    subst h2
    exact ⟨rfl, fun _ => rfl⟩
  · have h2 := Except.ok.inj h
    subst h2
    exact ⟨rfl, fun _ => rfl⟩
  · simp only [funcInstance] at h
    cases hg : goAtoi (a.headD "") with
    | error e => rw [hg] at h; exact Except.noConfusion h
    | ok s =>
      rw [hg] at h
      have h2 := Except.ok.inj h
      subst h2
      exact ⟨rfl, fun _ => rfl⟩
  · simp only [funcJconf] at h
    cases hg : fs (a.headD "") with
    | error e => rw [hg] at h; exact Except.noConfusion h
    | ok doc =>
      rw [hg] at h
      have h2 := Except.ok.inj h
      subst h2
      refine ⟨rfl, fun hfs => ?_⟩
      show doc.DBPort.getD c.DBPort = c.DBPort
      rw [hfs (a.headD "") doc hg]
      rfl
  · have h2 := Except.ok.inj h
    subst h2
    exact ⟨rfl, fun _ => rfl⟩
  · have h2 := Except.ok.inj h
    subst h2
    exact ⟨rfl, fun _ => rfl⟩
  · have h2 := Except.ok.inj h
    subst h2
    exact ⟨rfl, fun _ => rfl⟩
  · simp only [funcMode] at h
    cases hg : goAtoi (a.headD "") with
    | error e => rw [hg] at h; exact Except.noConfusion h
    | ok s =>
      rw [hg] at h
      have h3 : (if s < printAll ∨ OutModeLast ≤ s then (Except.error "unsupported mode" : Except String configuration)
          else Except.ok { c with Mode := s }) = Except.ok c' := h
      by_cases hr : s < printAll ∨ OutModeLast ≤ s
      · rw [if_pos hr] at h3; exact Except.noConfusion h3
      · rw [if_neg hr] at h3
        have h2 := Except.ok.inj h3
        subst h2
        exact ⟨rfl, fun _ => rfl⟩
  · simp only [funcDepth] at h
    cases hg : goAtoi (a.headD "") with
    | error e => rw [hg] at h; exact Except.noConfusion h
    | ok s =>
      rw [hg] at h
      have h3 : (if s < 0 then (Except.error "depth must be >= 0" : Except String configuration)
          else Except.ok { c with MaxDepth := s }) = Except.ok c' := h
      by_cases hr : s < 0
      · rw [if_pos hr] at h3; exact Except.noConfusion h3
      · rw [if_neg hr] at h3
        have h2 := Except.ok.inj h3
        subst h2
        exact ⟨rfl, fun _ => rfl⟩

/-- Case analysis of the scan outcome on an arbitrary token: either the help
sentinel, an ignored token, or a pending handler drawn from `handlerSet`
that has left every other tracker key and `DBPort` unchanged. -/
theorem scanChar_cases (fs : Fs) (tok : String) (c : configuration) :
    scanChar fs tok c = .ret c "command help" ∨
    scanChar fs tok c = .done c ∨
    (∃ f c2, scanChar fs tok c = .pending c2 f ∧ f ∈ handlerSet fs ∧
      c2.DBPort = c.DBPort ∧
      ∀ t, t ≠ tok → lookup c2.cmdlineNeeds t = lookup c.cmdlineNeeds t) := by
  unfold scanChar
  by_cases h1 : "-j" = tok
  · rw [if_pos h1]
    exact Or.inr (Or.inr ⟨funcOutType, c, rfl, by simp [handlerSet], rfl, fun t ht => rfl⟩)
  rw [if_neg h1]
  by_cases h2 : "-s" = tok
  · rw [if_pos h2]
    refine Or.inr (Or.inr ⟨funcSymbol, _, rfl, by simp [handlerSet], rfl, fun t ht => ?_⟩)
    exact lookup_mapSet_ne _ _ _ _ (fun hh => ht (hh.trans h2))
  rw [if_neg h2]
  by_cases h3 : "-i" = tok
  · rw [if_pos h3]
    refine Or.inr (Or.inr ⟨funcInstance, _, rfl, by simp [handlerSet], rfl, fun t ht => ?_⟩)
    exact lookup_mapSet_ne _ _ _ _ (fun hh => ht (hh.trans h3))
  rw [if_neg h3]
  by_cases h4 : "-f" = tok
  · rw [if_pos h4]
    exact Or.inr (Or.inr ⟨funcJconf fs, c, rfl, by simp [handlerSet], rfl, fun t ht => rfl⟩)
  rw [if_neg h4]
  by_cases h5 : "-u" = tok
  · rw [if_pos h5]
    exact Or.inr (Or.inr ⟨funcDBUser, c, rfl, by simp [handlerSet], rfl, fun t ht => rfl⟩)
  rw [if_neg h5]
  by_cases h6 : "-p" = tok
  · rw [if_pos h6]
    exact Or.inr (Or.inr ⟨funcDBPass, c, rfl, by simp [handlerSet], rfl, fun t ht => rfl⟩)
  rw [if_neg h6]
  by_cases h7 : "-d" = tok
  · rw [if_pos h7]
    exact Or.inr (Or.inr ⟨funcDBHost, c, rfl, by simp [handlerSet], rfl, fun t ht => rfl⟩)
  rw [if_neg h7]
  by_cases h8 : "-m" = tok
  · rw [if_pos h8]
    exact Or.inr (Or.inr ⟨funcMode, c, rfl, by simp [handlerSet], rfl, fun t ht => rfl⟩)
  rw [if_neg h8]
  by_cases h9 : "-x" = tok
  · rw [if_pos h9]
    exact Or.inr (Or.inr ⟨funcDepth, c, rfl, by simp [handlerSet], rfl, fun t ht => rfl⟩)
  rw [if_neg h9]
  by_cases h10 : "-h" = tok
  · rw [if_pos h10]
    exact Or.inl rfl
  rw [if_neg h10]
  exact Or.inr (Or.inl rfl)

/-- Invariant of a completed token loop over the real registry: the pending
handler stays within `handlerSet`, the tracker entry of every token absent
from the stream is unchanged, and (with a port-silent file system) `DBPort`
is unchanged. -/
theorem parseLoop_registry_invariant (fs : Fs) (osArgs : List String) :
    ∀ (pend : Option argFunc) (conf : configuration),
      pendOK fs pend →
      ∀ (c' : configuration) (p' : Option argFunc),
        parseLoop (cmdLineItemInit fs) osArgs pend conf = .finished c' p' →
        pendOK fs p' ∧
        (∀ t, t ∉ osArgs → lookup c'.cmdlineNeeds t = lookup conf.cmdlineNeeds t) ∧
        ((∀ q doc, fs q = Except.ok doc → doc.DBPort = none) → c'.DBPort = conf.DBPort) := by
  induction osArgs with
  | nil =>
    intro pend conf hp c' p' h
    injection h with h1 h2
    subst h1
    subst h2
    exact ⟨hp, fun t _ => rfl, fun _ => rfl⟩
  | cons tok rest ih =>
    intro pend conf hp c' p' h
    cases pend with
    | some f =>
      rw [parseLoop_cons_some] at h
      cases hg : f conf [tok] with
      | error e => rw [hg] at h; exact loopRes.noConfusion h
      | ok c2 =>
        rw [hg] at h
        have h2 : parseLoop (cmdLineItemInit fs) rest none c2 = .finished c' p' := h
        obtain ⟨ih1, ih2, ih3⟩ := ih none c2 trivial c' p' h2
        have hpres := handlerSet_preserves fs f hp conf [tok] c2 hg
        refine ⟨ih1, fun t ht => ?_, fun hfs => ?_⟩
        · rw [ih2 t (fun hm => ht (List.mem_cons_of_mem _ hm)), hpres.1]
        · rw [ih3 hfs, hpres.2 hfs]
    | none =>
      rw [parseLoop_cons_none, scanLines_eq] at h
      rcases scanChar_cases fs tok conf with hsc | hsc | ⟨f, c2, hsc, hmem, hport, hlook⟩
      · rw [hsc] at h
        exact loopRes.noConfusion h
      · rw [hsc] at h
        have h2 : parseLoop (cmdLineItemInit fs) rest none conf = .finished c' p' := h
        obtain ⟨ih1, ih2, ih3⟩ := ih none conf trivial c' p' h2
        exact ⟨ih1, fun t ht => ih2 t (fun hm => ht (List.mem_cons_of_mem _ hm)), ih3⟩
      · rw [hsc] at h
        have h2 : parseLoop (cmdLineItemInit fs) rest (some f) c2 = .finished c' p' := h
        obtain ⟨ih1, ih2, ih3⟩ := ih (some f) c2 hmem c' p' h2
        refine ⟨ih1, fun t ht => ?_, fun hfs => ?_⟩
        · rw [ih2 t (fun hm => ht (List.mem_cons_of_mem _ hm))]
          exact hlook t (fun he => ht (by rw [he]; exact List.mem_cons_self _ _))
        · rw [ih3 hfs, hport]

/-- The tracker-priming loop never touches `DBPort`. -/
theorem initNeeds_DBPort (lines : List cmdLineItems) :
    ∀ c : configuration, (initNeeds lines c).DBPort = c.DBPort := by
  induction lines with
  | nil => intro c; rfl
  | cons a rest ih =>
    intro c
    show (initNeeds rest (if a.needed
      then { c with cmdlineNeeds := mapSet c.cmdlineNeeds a.switchStr false }
      else c)).DBPort = c.DBPort
    rw [ih]
    split <;> rfl

/-- C2 counterexample: a failing run (help requested) in which the returned
configuration is not the pre-call default — its shared tracker already carries
the entries primed for the mandatory switches. -/
theorem argsParse_error_untouched_default_counterexample :
    (argsParse (cmdLineItemInit fsNone) ["-h"] defaultConfig).2.isSome = true ∧
    (argsParse (cmdLineItemInit fsNone) ["-h"] defaultConfig).1 ≠ defaultConfig := by
  exact ⟨rfl, by decide⟩

/-- C2 amended: on every error outcome the returned configuration agrees with
the pre-call default on all value fields — overwriting its tracker with the
default's tracker recovers the default exactly; only the shared
`cmdlineNeeds` map differs. -/
theorem argsParse_error_returns_default_values (lines : List cmdLineItems)
    (osArgs : List String) (dflt : configuration)
    (h : (argsParse lines osArgs dflt).2.isSome = true) :
    { (argsParse lines osArgs dflt).1 with cmdlineNeeds := dflt.cmdlineNeeds } = dflt := by
  cases hp : parseLoop lines osArgs none (initNeeds lines dflt) with
  | early c e =>
    rw [argsParse_early_eq lines osArgs dflt c e hp]
  | finished c pend =>
    cases pend with
    | some f =>
      rw [argsParse_finished_pending lines osArgs dflt c f hp]
    | none =>
      cases hall : (c.cmdlineNeeds.all fun kv => kv.2) with
      | true =>
        rw [argsParse_finished_ok lines osArgs dflt c hp hall] at h
        simp at h
      | false =>
        rw [argsParse_finished_missing lines osArgs dflt c hp hall]

/-- Witness for the amended C2 at a failing concrete run. -/
theorem argsParse_error_returns_default_values_witness :
    (argsParse (cmdLineItemInit fsNone) ["-h"] defaultConfig).2.isSome = true ∧
    { (argsParse (cmdLineItemInit fsNone) ["-h"] defaultConfig).1 with
        cmdlineNeeds := defaultConfig.cmdlineNeeds } = defaultConfig :=
  ⟨rfl, argsParse_error_returns_default_values (cmdLineItemInit fsNone) ["-h"] defaultConfig rfl⟩

/-- C3: whenever a mandatory switch token never appears in the stream and the
scan completes without a handler failure or a dangling argument, the parse
fails with the missing-required-switch error, however many other switches
were supplied. -/
theorem argsParse_missing_required (fs : Fs) (t : String) (osArgs : List String)
    (ht : t = "-s" ∨ t = "-i") (hnot : t ∉ osArgs)
    (hclean : ∃ c, parseLoop (cmdLineItemInit fs) osArgs none
      (initNeeds (cmdLineItemInit fs) defaultConfig) = loopRes.finished c none) :
    (argsParse (cmdLineItemInit fs) osArgs defaultConfig).2 = some "missing needed arg" := by
  obtain ⟨c, hc⟩ := hclean
  obtain ⟨-, hlook, -⟩ := parseLoop_registry_invariant fs osArgs none
    (initNeeds (cmdLineItemInit fs) defaultConfig) trivial c none hc
  have hl : lookup c.cmdlineNeeds t = some false := by
    rw [hlook t hnot]
    rcases ht with rfl | rfl
    · rfl
    · rfl
  rw [argsParse_finished_missing _ _ _ _ hc (all_false_of_lookup _ _ hl)]

/-- Witness for C3: a stream supplying only `-i` misses mandatory `-s`. -/
theorem argsParse_missing_required_witness :
    "-s" ∉ ["-i", "2"] ∧
    (argsParse (cmdLineItemInit fsNone) ["-i", "2"] defaultConfig).2 =
      some "missing needed arg" := by
  refine ⟨by decide, ?_⟩
  exact argsParse_missing_required fsNone "-s" ["-i", "2"] (Or.inl rfl) (by decide)
    ⟨{ defaultConfig with cmdlineNeeds := [("-s", false), ("-i", true)], Instance := 2 }, rfl⟩

/-- C4: the config-file overlay is merge-by-presence: for every working
configuration and every document containing exactly one field, the handler
returns the configuration with only that field changed. -/
theorem funcJconf_merge_by_presence (c : configuration) (path : String)
    (s : String) (l : List String) (n : Int) :
    funcJconf (fun _ => Except.ok { emptyDoc with DBTargetDB := some s }) c [path] =
      Except.ok { c with DBTargetDB := s } ∧
    funcJconf (fun _ => Except.ok { emptyDoc with DBUrl := some s }) c [path] =
      Except.ok { c with DBUrl := s } ∧
    funcJconf (fun _ => Except.ok { emptyDoc with DBUser := some s }) c [path] =
      Except.ok { c with DBUser := s } ∧
    funcJconf (fun _ => Except.ok { emptyDoc with DBPassword := some s }) c [path] =
      Except.ok { c with DBPassword := s } ∧
    funcJconf (fun _ => Except.ok { emptyDoc with Symbol := some s }) c [path] =
      Except.ok { c with Symbol := s } ∧
    funcJconf (fun _ => Except.ok { emptyDoc with Jout := some s }) c [path] =
      Except.ok { c with Jout := s } ∧
    funcJconf (fun _ => Except.ok { emptyDoc with ExcludedBefore := some l }) c [path] =
      Except.ok { c with ExcludedBefore := l } ∧
    funcJconf (fun _ => Except.ok { emptyDoc with ExcludedAfter := some l }) c [path] =
      Except.ok { c with ExcludedAfter := l } ∧
    funcJconf (fun _ => Except.ok { emptyDoc with TargetSubsys := some l }) c [path] =
      Except.ok { c with TargetSubsys := l } ∧
    funcJconf (fun _ => Except.ok { emptyDoc with Instance := some n }) c [path] =
      Except.ok { c with Instance := n } ∧
    funcJconf (fun _ => Except.ok { emptyDoc with MaxDepth := some n }) c [path] =
      Except.ok { c with MaxDepth := n } ∧
    funcJconf (fun _ => Except.ok { emptyDoc with Mode := some n }) c [path] =
      Except.ok { c with Mode := n } ∧
    funcJconf (fun _ => Except.ok { emptyDoc with DBPort := some n }) c [path] =
      Except.ok { c with DBPort := n } :=
  ⟨rfl, rfl, rfl, rfl, rfl, rfl, rfl, rfl, rfl, rfl, rfl, rfl, rfl⟩

/-- C5: the display-mode handler accepts arguments "0" and "1" (inside the
enumerated mode range) and rejects "99" (outside it) with a validation
error. -/
theorem funcMode_range (c : configuration) :
    funcMode c ["0"] = Except.ok { c with Mode := 0 } ∧
    funcMode c ["1"] = Except.ok { c with Mode := 1 } ∧
    funcMode c ["99"] = Except.error "unsupported mode" :=
  ⟨rfl, rfl, rfl⟩

/-- C6 counterexample: "-h" occurring in argument position is consumed as the
pending switch argument; the run fails with the missing-required-switch error,
not with the help sentinel. -/
theorem argsParse_help_anywhere_counterexample :
    "-h" ∈ ["-s", "-h"] ∧
    (argsParse (cmdLineItemInit fsNone) ["-s", "-h"] defaultConfig).2 ≠ some "command help" ∧
    (argsParse (cmdLineItemInit fsNone) ["-s", "-h"] defaultConfig).2 =
      some "missing needed arg" := by
  exact ⟨by decide, by decide, rfl⟩

/-- C6 amended: when "-h" is reached in switch-scanning position (the tokens
before it were consumed without failure and left no pending argument),
`argsParse` stops with the help sentinel at once, and the tokens after "-h"
are never processed: the outcome equals that of the stream truncated right
after "-h". -/
theorem argsParse_help_requested (fs : Fs) (pre post : List String)
    (dflt : configuration)
    (hpre : ∃ c, parseLoop (cmdLineItemInit fs) pre none
      (initNeeds (cmdLineItemInit fs) dflt) = loopRes.finished c none) :
    (argsParse (cmdLineItemInit fs) (pre ++ "-h" :: post) dflt).2 = some "command help" ∧
    argsParse (cmdLineItemInit fs) (pre ++ "-h" :: post) dflt =
      argsParse (cmdLineItemInit fs) (pre ++ ["-h"]) dflt := by
  obtain ⟨c, hc⟩ := hpre
  have hrun : ∀ ys, parseLoop (cmdLineItemInit fs) (pre ++ "-h" :: ys) none
      (initNeeds (cmdLineItemInit fs) dflt) = .early c "command help" := by
    intro ys
    rw [parseLoop_append, hc]
    show parseLoop (cmdLineItemInit fs) ("-h" :: ys) none c = _
    rw [parseLoop_cons_none, scanLines_eq]
    rfl
  constructor
  · rw [argsParse_early_eq _ _ _ c "command help" (hrun post)]
  · rw [argsParse_early_eq _ _ _ c "command help" (hrun post),
      argsParse_early_eq _ _ _ c "command help" (hrun [])]

/-- Witness for the amended C6 with trailing tokens after "-h". -/
theorem argsParse_help_requested_witness :
    (argsParse (cmdLineItemInit fsNone) ([] ++ "-h" :: ["-s", "zzz"]) defaultConfig).2 =
      some "command help" ∧
    argsParse (cmdLineItemInit fsNone) ([] ++ "-h" :: ["-s", "zzz"]) defaultConfig =
      argsParse (cmdLineItemInit fsNone) ([] ++ ["-h"]) defaultConfig :=
  argsParse_help_requested fsNone [] ["-s", "zzz"] defaultConfig
    ⟨initNeeds (cmdLineItemInit fsNone) defaultConfig, rfl⟩

/-- C7: the mandatory-switch tracker entry flips to true the moment the token
is recognized, before the argument is consumed or the handler runs; hence a
mandatory switch with an invalid argument fails with the handler's error
while its tracker entry already reads true. -/
theorem tracker_marked_on_recognition (fs : Fs) (pre : List String)
    (bad e : String) (dflt : configuration)
    (hpre : ∃ c, parseLoop (cmdLineItemInit fs) pre none
      (initNeeds (cmdLineItemInit fs) dflt) = loopRes.finished c none)
    (hbad : goAtoi bad = Except.error e) :
    (∀ c0 : configuration, scanLines (cmdLineItemInit fs) "-i" c0 =
      scanRes.pending { c0 with cmdlineNeeds := mapSet c0.cmdlineNeeds "-i" true }
        funcInstance) ∧
    (argsParse (cmdLineItemInit fs) (pre ++ ["-i", bad]) dflt).2 = some e ∧
    lookup (argsParse (cmdLineItemInit fs) (pre ++ ["-i", bad]) dflt).1.cmdlineNeeds "-i" =
      some true := by
  obtain ⟨c, hc⟩ := hpre
  have hscan : ∀ c0 : configuration, scanLines (cmdLineItemInit fs) "-i" c0 =
      scanRes.pending { c0 with cmdlineNeeds := mapSet c0.cmdlineNeeds "-i" true }
        funcInstance := by
    intro c0
    rw [scanLines_eq]
    rfl
  have hfi : funcInstance { c with cmdlineNeeds := mapSet c.cmdlineNeeds "-i" true } [bad] =
      Except.error e := by
    show (match goAtoi bad with
      | .error e => (Except.error e : Except String configuration)
      | .ok s => Except.ok { c with cmdlineNeeds := mapSet c.cmdlineNeeds "-i" true, Instance := s }) = _
    rw [hbad]
  have hrun : parseLoop (cmdLineItemInit fs) (pre ++ ["-i", bad]) none
      (initNeeds (cmdLineItemInit fs) dflt) =
      .early { c with cmdlineNeeds := mapSet c.cmdlineNeeds "-i" true } e := by
    rw [parseLoop_append, hc]
    show parseLoop (cmdLineItemInit fs) ["-i", bad] none c = _
    rw [parseLoop_cons_none, hscan c]
    show parseLoop (cmdLineItemInit fs) [bad] (some funcInstance)
      { c with cmdlineNeeds := mapSet c.cmdlineNeeds "-i" true } = _
    rw [parseLoop_cons_some, hfi]
  refine ⟨hscan, ?_, ?_⟩
  · rw [argsParse_early_eq _ _ _ _ _ hrun]
  · rw [argsParse_early_eq _ _ _ _ _ hrun]
    show lookup (mapSet c.cmdlineNeeds "-i" true) "-i" = some true
    exact lookup_mapSet_self _ _ _

/-- Witness for C7: mandatory `-i` with a non-numeric argument. -/
theorem tracker_marked_on_recognition_witness :
    (argsParse (cmdLineItemInit fsNone) ([] ++ ["-i", "xy"]) defaultConfig).2 =
      some "strconv.Atoi: parsing xy: invalid syntax" ∧
    lookup (argsParse (cmdLineItemInit fsNone) ([] ++ ["-i", "xy"]) defaultConfig).1.cmdlineNeeds
      "-i" = some true := by
  have h := tracker_marked_on_recognition fsNone [] "xy"
    "strconv.Atoi: parsing xy: invalid syntax" defaultConfig
    ⟨initNeeds (cmdLineItemInit fsNone) defaultConfig, rfl⟩ rfl
  exact ⟨h.2.1, h.2.2⟩

/-- C8: the duplicated token "-p" always dispatches the first-registered
descriptor's handler `funcDBPass` (which differs from `funcDBPort`); the
dispatch characterization of the whole registry shows `funcDBPort` is never
selected for any token, and consequently — as long as the config-file overlay
supplies no port — no command line can move `DBPort` off its default. -/
theorem duplicate_p_shadows_port (fs : Fs) :
    (∀ c : configuration, scanLines (cmdLineItemInit fs) "-p" c = scanRes.pending c funcDBPass) ∧
    funcDBPass ≠ funcDBPort ∧
    (∀ (tok : String) (c : configuration),
      scanLines (cmdLineItemInit fs) tok c = scanChar fs tok c) ∧
    (∀ (osArgs : List String) (dflt : configuration),
      (∀ q doc, fs q = Except.ok doc → doc.DBPort = none) →
      (argsParse (cmdLineItemInit fs) osArgs dflt).1.DBPort = dflt.DBPort) := by
  refine ⟨?_, ?_, scanLines_eq fs, ?_⟩
  · intro c
    rw [scanLines_eq]
    rfl
  · intro hcontr
    have h := congrFun (congrFun hcontr defaultConfig) ["x"]
    exact Except.noConfusion h
  · intro osArgs dflt hfs
    cases hp : parseLoop (cmdLineItemInit fs) osArgs none (initNeeds (cmdLineItemInit fs) dflt) with
    | early c e =>
      rw [argsParse_early_eq _ _ _ _ _ hp]
    | finished c pend =>
      cases pend with
      | some f =>
        rw [argsParse_finished_pending _ _ _ _ _ hp]
      | none =>
        obtain ⟨-, -, hport⟩ := parseLoop_registry_invariant fs osArgs none
          (initNeeds (cmdLineItemInit fs) dflt) trivial c none hp
        have hport2 : c.DBPort = dflt.DBPort := by
          rw [hport hfs]
          exact initNeeds_DBPort (cmdLineItemInit fs) dflt
        cases hall : (c.cmdlineNeeds.all fun kv => kv.2) with
        | true =>
          rw [argsParse_finished_ok _ _ _ _ hp hall]
          exact hport2
        | false =>
          rw [argsParse_finished_missing _ _ _ _ hp hall]

/-- Witness for C8: supplying `-p 9999` changes the password, never the
port. -/
theorem duplicate_p_shadows_port_witness :
    (argsParse (cmdLineItemInit fsNone) ["-p", "9999", "-s", "x", "-i", "1"]
      defaultConfig).1.DBPort = defaultConfig.DBPort ∧
    (argsParse (cmdLineItemInit fsNone) ["-p", "9999", "-s", "x", "-i", "1"]
      defaultConfig).1.DBPassword = "9999" :=
  ⟨(duplicate_p_shadows_port fsNone).2.2.2 ["-p", "9999", "-s", "x", "-i", "1"]
      defaultConfig (fun q doc h => Except.noConfusion h),
   by decide⟩

/-- C9: the registry's only "-d" descriptor takes an argument, is not
mandatory, has id 7 (registration position), and is bound to `funcDBHost`,
which sets the DB host verbatim and never fails. -/
theorem registry_dash_d (fs : Fs) :
    ((cmdLineItemInit fs).filter fun a => a.switchStr = "-d") =
      [{ function := funcDBHost, switchStr := "-d",
         helpStr := "Forces use specified DBHost", id := 7, hasArg := true,
         needed := false }] ∧
    ∀ (c : configuration) (host : String),
      funcDBHost c [host] = Except.ok { c with DBUrl := host } :=
  ⟨rfl, fun c host => rfl⟩

/-- C10: the working configuration's `cmdlineNeeds` is the same map object as
`defaultConfig`'s, so an aborted parse hands back a configuration carrying the
tracker entries written before the failure, the package-level default value is
mutated through the shared map, and the next invocation begins from the
persisted map (whose keys survive; its mandatory entries are re-primed to
false). -/
theorem shared_tracker_mutation :
    (argsParse (cmdLineItemInit fsNone) ["-i", "zz"] defaultConfig).2.isSome = true ∧
    (argsParse (cmdLineItemInit fsNone) ["-i", "zz"] defaultConfig).1.cmdlineNeeds =
      [("-s", false), ("-i", true)] ∧
    defaultAfter defaultConfig (argsParse (cmdLineItemInit fsNone) ["-i", "zz"] defaultConfig) ≠
      defaultConfig ∧
    (defaultAfter defaultConfig
      (argsParse (cmdLineItemInit fsNone) ["-i", "zz"] defaultConfig)).cmdlineNeeds =
      (argsParse (cmdLineItemInit fsNone) ["-i", "zz"] defaultConfig).1.cmdlineNeeds ∧
    (argsParse (cmdLineItemInit fsNone) []
      (defaultAfter defaultConfig
        (argsParse (cmdLineItemInit fsNone) ["-i", "zz"] defaultConfig))).1.cmdlineNeeds =
      [("-s", false), ("-i", false)] :=
  ⟨rfl, rfl, by decide, rfl, rfl⟩
